import Mathlib

/-!
Verification of the reconciliation and mutation engine of the
PreorderUploadScriptForCoverlandShopify repository.

The engine lives in three near-duplicate step scripts:
`JW_Step12_AddVariantsToExistingOffers.py`, `JW_Step11_RemoveVariantsFromExistingOffers.py`
and `JW_Step09_AddVariantsToNewSellingPlan.py`.  The definitions below are a
shallow embedding of those scripts:

* pure helpers (`_coerce_ids_to_int`, the set differencing in `main`,
  `_is_job_in_progress`, the 422-classification test) are translated directly;
* the HTTP layer is replaced by an oracle, a function giving the outcome of the
  n-th call (or of a call on a given batch where the code keys its behaviour on
  the batch that is posted); time is modelled by summing the sleeps the code
  would perform, with Python floats rendered as rationals (1.8 = 9/5);
* the `while True` lock-wait loop of `_try_add_chunk_with_lock_wait` cannot be
  given a structural measure without assuming facts about its parameters, so it
  takes an explicit fuel argument and returns `none` on fuel exhaustion; the
  theorems always exhibit `some` results, so no behaviour is hidden in the
  fuel.
-/

/-- Lower-case a string character by character, as Python `str.lower()` does on
the ASCII error messages handled here. -/
def lowerStr (s : String) : String := ⟨s.data.map Char.toLower⟩

/-- Python substring test `pat in s`. -/
def strContains (s pat : String) : Bool := decide (pat.data <:+: s.data)

/-- Python string slice `s[:n]`. -/
def strTake (n : Nat) (s : String) : String := ⟨s.data.take n⟩

/-- A Python value that may appear as a variant id in a database row or an API
response: an integer, a string, or `None`. -/
inductive PyVal where
  | vInt (n : Int)
  | vStr (s : String)
  | vNone
deriving DecidableEq

/-- Python `int(s)` on a string, for the canonical shapes that occur in this
repository: an optional sign followed by decimal digits.  A string such as
`"123.0"` raises `ValueError` in Python and yields `none` here. -/
def pyStrToInt (s : String) : Option Int :=
  let digits : List Char → Option Nat := fun cs =>
    if cs = [] then none
    else cs.foldl (fun acc c =>
      acc.bind fun n => if c.isDigit then some (10 * n + (c.toNat - 48)) else none) (some 0)
  match s.data with
  | '-' :: rest => (digits rest).map fun n => -(n : Int)
  | cs => (digits cs).map fun n => (n : Int)

/-- Python `int(x)` on a `PyVal`; `none` models the raised
`ValueError`/`TypeError` that the scripts catch. -/
def pyToInt : PyVal → Option Int
  | .vInt n => some n
  | .vStr s => pyStrToInt s
  | .vNone => none

/-- The loop body of `_coerce_ids_to_int` (Step11/Step12): returns the pair of
the successfully coerced ids and the rejected raw values, in order. -/
def coerceLoop : List PyVal → List Int × List PyVal
  | [] => ([], [])
  | x :: xs =>
    let (good, bad) := coerceLoop xs
    match pyToInt x with
    | some n => (n :: good, bad)
    | none => (good, x :: bad)

/-- `_coerce_ids_to_int` (Step11/Step12, lines 131-140): only the coerced list
is returned; the rejected values are merely printed to the console. -/
def _coerce_ids_to_int (ids : List PyVal) : List Int := (coerceLoop ids).1

/-- The set differencing performed in `main` of Step11/Step12 (lines 425-429 of
Step12): `to_add = sorted(set_db - set_api)`, `to_remove = sorted(set_api -
set_db)`, where `set_db` holds the desired members and `set_api` the remote
members.  Python sets and `sorted` are polymorphic over the totally ordered
element type, so the embedding is as well; the scripts instantiate it at
`String`. -/
def syncDiff {α : Type} [LinearOrder α] [DecidableEq α]
    (desired remote : List α) : List α × List α :=
  let set_db := desired.dedup
  let set_api := remote.dedup
  (List.insertionSort (· ≤ ·) (set_db.filter fun x => decide (x ∉ set_api)),
   List.insertionSort (· ≤ ·) (set_api.filter fun x => decide (x ∉ set_db)))

/-- Outcome of one `requests.post` call, as seen by `_post_with_retries`:
either a network-level `requests.RequestException`, or a response with a
status code and an optional `Retry-After` header (`some (some q)` = present
and parseable as a float, `some none` = present but unparseable, `none` =
absent). -/
inductive PostCall where
  | exc
  | resp (status : Nat) (retryAfter : Option (Option ℚ))
deriving DecidableEq

/-- How `_post_with_retries` ends: re-raising the last network exception, or
returning the last response (with the given status). -/
inductive PostResult where
  | raised
  | returned (status : Nat)
deriving DecidableEq

/-- Observable behaviour of one `_post_with_retries` run: its result, how many
times it posted the (identical) payload, and the sleeps it performed, in
order. -/
structure PostOut where
  result : PostResult
  calls : Nat
  sleeps : List ℚ
deriving DecidableEq

/-- Record a sleep in front of the behaviour of the rest of the run. -/
def consSleep (d : ℚ) (o : PostOut) : PostOut := { o with sleeps := d :: o.sleeps }

/-- Step12 line 166: `resp.status_code in (429,) or 500 <= resp.status_code < 600`. -/
def transientStatus (s : Nat) : Bool := s == 429 || (500 ≤ s && s ≤ 599)

/-- The delay chosen by Step12 `_post_with_retries` after the response to call
`i` (so `attempt = i + 1`): the parsed `Retry-After` header if present, else
`base_backoff * 2 ** (attempt - 1)`. -/
def raDelay (ra : Option (Option ℚ)) (base : ℚ) (i : Nat) : ℚ :=
  match ra with
  | some (some q) => q
  | some none => base * 2 ^ i
  | none => base * 2 ^ i

namespace Step12

/-- `_post_with_retries` of Step11/Step12 (lines 142-181 of Step12).  `i` is
the number of calls already made (= the Python `attempt` counter, which has
been incremented once per previous call, all of which failed), `r` is the
number of retries still allowed (`max_retries - i`).  On a network exception
the delay is `base * 2 ** (attempt - 1) = base * 2 ** i`; on a 429/5xx
response the `Retry-After` header is honoured when parseable; any other
response is returned at once. -/
def _post_with_retries (oracle : Nat → PostCall) (base : ℚ) : Nat → Nat → PostOut
  | i, 0 =>
    match oracle i with
    | .exc => ⟨.raised, i + 1, []⟩
    | .resp s _ => ⟨.returned s, i + 1, []⟩
  | i, r + 1 =>
    match oracle i with
    | .exc => consSleep (base * 2 ^ i) (_post_with_retries oracle base (i + 1) r)
    | .resp s ra =>
      if transientStatus s then
        consSleep (raDelay ra base i) (_post_with_retries oracle base (i + 1) r)
      else ⟨.returned s, i + 1, []⟩

/-- Step12 `_post_with_retries` entered with its defaults: `attempt = 0` with
`max_retries` retries allowed. -/
def post (oracle : Nat → PostCall) (maxRetries : Nat) (base : ℚ) : PostOut :=
  _post_with_retries oracle base 0 maxRetries

end Step12

namespace Step09

/-- `_post_with_retries` of Step09 (lines 78-94): `for attempt in range(1,
MAX_RETRIES + 1)` with `MAX_RETRIES = 3`, `INITIAL_BACKOFF = 1.0`.  `a` is the
number of attempts still available including the current one.  Only the
statuses 429/500/502/503/504 are retried, only while `attempt < MAX_RETRIES`,
and the `Retry-After` header is never consulted; the backoff before the k-th
retry is `2 ** (k - 1)` seconds. -/
def _post_with_retries (oracle : Nat → PostCall) : Nat → Nat → PostOut
  | i, 0 => ⟨.raised, i, []⟩
  | i, 1 =>
    match oracle i with
    | .exc => ⟨.raised, i + 1, []⟩
    | .resp s _ => ⟨.returned s, i + 1, []⟩
  | i, a + 2 =>
    match oracle i with
    | .exc => consSleep (2 ^ i) (_post_with_retries oracle (i + 1) (a + 1))
    | .resp s _ =>
      if 200 ≤ s && s ≤ 299 then ⟨.returned s, i + 1, []⟩
      else if s == 429 || s == 500 || s == 502 || s == 503 || s == 504 then
        consSleep (2 ^ i) (_post_with_retries oracle (i + 1) (a + 1))
      else ⟨.returned s, i + 1, []⟩

/-- Step09 `_post_with_retries` entered with its module constants. -/
def post (oracle : Nat → PostCall) : PostOut := _post_with_retries oracle 0 3

end Step09

/-- Whether a call outcome is one the Step12 transport retries: a network
error, HTTP 429, or any 5xx status. -/
def transientCall : PostCall → Bool
  | .exc => true
  | .resp s _ => transientStatus s

/-- The delay Step12 `_post_with_retries` performs after call `i`, as a
function of that call's outcome. -/
def delayOf (oracle : Nat → PostCall) (base : ℚ) (i : Nat) : ℚ :=
  match oracle i with
  | .exc => base * 2 ^ i
  | .resp _ ra => raDelay ra base i

/-- The delays after calls `i, i+1, ..., i+n-1`. -/
def delays (oracle : Nat → PostCall) (base : ℚ) : Nat → Nat → List ℚ
  | _, 0 => []
  | i, n + 1 => delayOf oracle base i :: delays oracle base (i + 1) n

/-- Outcome of one `_try_add_chunk` invocation (Step12 lines 231-265): `succ`
for a 2xx response, `fail err` otherwise, where `err` is the error text the
function builds (the raw body for 409/422, `"HTTP {code}: {text}"` for other
statuses). -/
inductive TryRes where
  | succ
  | fail (err : String)
deriving DecidableEq

/-- `TryRes.isOk`: the boolean `ok` component of the Python triple. -/
def TryRes.isOk : TryRes → Bool
  | .succ => true
  | .fail _ => false

/-- `_is_job_in_progress` (Step12 lines 183-185). -/
def _is_job_in_progress (err : String) : Bool :=
  strContains (lowerStr err) "another job is in progress" ||
    strContains (lowerStr err) "job is in progress"

/-- The lock error text produced by the remote service. -/
def jobMsg : String := "another job is in progress"

/-- Observable behaviour of one `_try_add_chunk_with_lock_wait` run: the
`(ok, err)` components of its Python return value, the number of
`_try_add_chunk` calls it made, the sleeps it performed, and the batch each
call posted. -/
structure LockOut where
  ok : Bool
  err : Option String
  attempts : Nat
  sleeps : List ℚ
  posted : List (List Int)
deriving DecidableEq

namespace Step12

/-- The `while True` loop of `_try_add_chunk_with_lock_wait` (lines 187-229).
`try_ i` is the outcome of the i-th `_try_add_chunk` call on the fixed batch
`ids`; `elapsed` stands for `time() - start` (calls are instantaneous in the
model, so it is the sum of the sleeps so far); `sleepS` is the current
`sleep_s`.  On success the loop returns `(True, body, None)`; on a lock error
it returns the error once `elapsed` has reached the budget, and otherwise
sleeps `sleep_s`, updates `sleep_s = min(cap, sleep_s * factor)` and retries
the same unsplit batch; any other error is returned to the caller.  `fuel`
bounds the iterations of the model only: `none` is never a run of the code. -/
def lockWaitAux (try_ : Nat → TryRes) (ids : List Int) (budget factor cap : ℚ) :
    Nat → Nat → ℚ → ℚ → List ℚ → List (List Int) → Option LockOut
  | 0, _, _, _, _, _ => none
  | fuel + 1, i, elapsed, sleepS, sleeps, posted =>
    match try_ i with
    | .succ => some ⟨true, none, i + 1, sleeps, posted ++ [ids]⟩
    | .fail err =>
      if _is_job_in_progress err then
        if budget ≤ elapsed then some ⟨false, some err, i + 1, sleeps, posted ++ [ids]⟩
        else
          lockWaitAux try_ ids budget factor cap fuel (i + 1) (elapsed + sleepS)
            (min cap (sleepS * factor)) (sleeps ++ [sleepS]) (posted ++ [ids])
      else some ⟨false, some err, i + 1, sleeps, posted ++ [ids]⟩

/-- `_try_add_chunk_with_lock_wait` with the constants every caller in Step12
passes: `lock_wait_seconds=180`, `lock_backoff_start=1.0`,
`lock_backoff_factor=1.8` (= 9/5), `lock_backoff_cap=12.0`. -/
def _try_add_chunk_with_lock_wait (try_ : Nat → TryRes) (ids : List Int)
    (fuel : Nat) : Option LockOut :=
  lockWaitAux try_ ids 180 (9 / 5) 12 fuel 0 0 1 [] []

/-- The mutable state the recursive resolver threads: the accumulator lists
`skipped_invalid` and `added_ok` (Python passes them by reference), plus the
log of the batches probed. -/
structure DncState where
  skipped : List Int
  added : List Int
  posted : List (List Int)
deriving DecidableEq

/-- `_divide_and_conquer_on_422` of Step12 (lines 267-329), with
`_try_add_chunk_with_lock_wait` abstracted into `probe` (the boolean `ok` of
its result; the recursion inspects nothing else).  Note the source's second
block probes `left` again — not `right` — while crediting `right` on success
and recursing on `right` on failure. -/
def _divide_and_conquer_on_422 (probe : List Int → Bool) :
    List Int → DncState → DncState
  | [], st => st
  | [x], st => { st with skipped := st.skipped ++ [x] }
  | x :: y :: rest, st =>
    let ids := x :: y :: rest
    let mid := ids.length / 2
    let left := ids.take mid
    let right := ids.drop mid
    let st1 :=
      if probe left then
        { st with added := st.added ++ left, posted := st.posted ++ [left] }
      else
        _divide_and_conquer_on_422 probe left { st with posted := st.posted ++ [left] }
    if probe left then
      { st1 with added := st1.added ++ right, posted := st1.posted ++ [left] }
    else
      _divide_and_conquer_on_422 probe right { st1 with posted := st1.posted ++ [left] }
  termination_by ids _ => ids.length
  decreasing_by
    all_goals simp [List.length_take, List.length_drop]
    all_goals omega

end Step12

namespace Step11

/-- `_divide_and_conquer_on_422` of Step11 (lines 324-378): identical to the
Step12 function except that the second block probes, credits and recurses on
`right`, with `_try_add_chunk` abstracted into `probe` in the same way. -/
def _divide_and_conquer_on_422 (probe : List Int → Bool) :
    List Int → Step12.DncState → Step12.DncState
  | [], st => st
  | [x], st => { st with skipped := st.skipped ++ [x] }
  | x :: y :: rest, st =>
    let ids := x :: y :: rest
    let mid := ids.length / 2
    let left := ids.take mid
    let right := ids.drop mid
    let st1 :=
      if probe left then
        { st with added := st.added ++ left, posted := st.posted ++ [left] }
      else
        _divide_and_conquer_on_422 probe left { st with posted := st.posted ++ [left] }
    if probe right then
      { st1 with added := st1.added ++ right, posted := st1.posted ++ [right] }
    else
      _divide_and_conquer_on_422 probe right { st1 with posted := st1.posted ++ [right] }
  termination_by ids _ => ids.length
  decreasing_by
    all_goals simp [List.length_take, List.length_drop]
    all_goals omega

end Step11

namespace Step12

/-- The chunking `for i in range(0, total, chunk_size): chunk = variant_ids[i :
i + chunk_size]` of `call_stoq_add_variants` (lines 352-353).  A zero step is
a `ValueError` in Python; no caller uses one. -/
def chunksOf (n : Nat) : List Int → List (List Int)
  | [] => []
  | x :: xs =>
    if n = 0 then []
    else (x :: xs).take n :: chunksOf n ((x :: xs).drop n)
  termination_by l => l.length
  decreasing_by simp [List.length_drop]; omega

/-- The 422 classification of `call_stoq_add_variants` (line 369):
`"422" in err or "already" in err.lower() or "unprocessable" in err.lower()`. -/
def is422ish (err : String) : Bool :=
  strContains err "422" || strContains (lowerStr err) "already" ||
    strContains (lowerStr err) "unprocessable"

/-- The note stored into `first_error` when some ids went through the 422
resolver (line 377). -/
def mkErr422 (err : String) : String :=
  "Some IDs could not be added (likely already present). Example error: " ++ strTake 200 err

/-- `if first_error is None: first_error = s`. -/
def keepFirst (o : Option String) (s : String) : Option String :=
  match o with
  | some e => some e
  | none => some s

/-- State of the chunk loop of `call_stoq_add_variants`: `added_ok`,
`skipped_invalid`, `first_error`, and the log of batches posted. -/
structure RunState where
  added : List Int
  skipped : List Int
  firstError : Option String
  posted : List (List Int)
deriving DecidableEq

/-- One iteration of the chunk loop of `call_stoq_add_variants` (lines
352-381), with `_try_add_chunk_with_lock_wait` abstracted into the pure
`probe` (its `(ok, err)` result on the batch it is given; its lock-waiting is
modelled separately by `lockWaitAux`).  On success the chunk is credited; on a
nonempty error matching the 422 test the chunk is handed to
`_divide_and_conquer_on_422`; otherwise only `first_error` is updated. -/
def processChunk (probe : List Int → TryRes) (st : RunState) (chunk : List Int) :
    RunState :=
  match probe chunk with
  | .succ => { st with added := st.added ++ chunk, posted := st.posted ++ [chunk] }
  | .fail err =>
    if err ≠ "" ∧ is422ish err = true then
      let d := _divide_and_conquer_on_422 (fun b => (probe b).isOk) chunk
        ⟨st.skipped, st.added, st.posted ++ [chunk]⟩
      { added := d.added
        skipped := d.skipped
        posted := d.posted
        firstError := keepFirst st.firstError (mkErr422 err) }
    else
      { st with
        posted := st.posted ++ [chunk]
        firstError := keepFirst st.firstError
          (if err = "" then "Unknown error while adding variants." else err) }

/-- The outcome of `call_stoq_add_variants`: the summary fields and the
`overall_ok` flag of lines 383-403. -/
structure RunResult where
  added : List Int
  skipped : List Int
  firstError : Option String
  requested : Nat
  flag : Bool
  posted : List (List Int)
deriving DecidableEq

/-- `call_stoq_add_variants` (lines 331-403): chunk the ids, run the loop, and
compute `overall_ok = (len(added_ok) > 0) and (len(skipped_invalid) == 0 or
len(added_ok) >= 1)` exactly as written. -/
def call_stoq_add_variants (probe : List Int → TryRes) (ids : List Int)
    (chunkSize : Nat) : RunResult :=
  let st := (chunksOf chunkSize ids).foldl (processChunk probe) ⟨[], [], none, []⟩
  { added := st.added, skipped := st.skipped, firstError := st.firstError,
    requested := ids.length,
    flag := decide (0 < st.added.length) &&
      (decide (st.skipped.length = 0) || decide (1 ≤ st.added.length)),
    posted := st.posted }

/-- A row of the `stoq_selling_plan_offers` query driving `main` (lines
408-410): `stoq_offer_id`, `id` and `internal_name`, any of which may be
missing. -/
structure OfferRow where
  stoq_offer_id : Option String
  id : Option String
  internal_name : Option String
deriving DecidableEq

/-- Python truthiness test `not x` on an optional string: `None` and `""` are
falsy. -/
def falsy : Option String → Bool
  | none => true
  | some s => s == ""

/-- What `main` reports for one offer: the add summary, or `none` when
`to_add_int` was empty and the add was skipped. -/
structure OfferOutcome where
  offerId : String
  addSummary : Option RunResult
deriving DecidableEq

/-- The per-offer body of `main` (lines 410-495): raise when the ids are
falsy, read the remote members (which may itself raise, via
`raise_for_status` or a transport error — `fetchApi` returns `Except`), read
the desired members, diff the two string sets, coerce the additions to
integers, and call the add engine when anything is left.  The computed
`to_remove` is unused by Step12. -/
def process_offer (fetchApi : String → Except String (List String))
    (fetchDb : String → List String) (probe : List Int → TryRes)
    (row : OfferRow) : Except String OfferOutcome :=
  if falsy row.stoq_offer_id || falsy row.id then
    .error "Offer not found for internal_name Preorder-20wks-40."
  else
    match row.stoq_offer_id, row.id with
    | some offerId, some planId =>
      (fetchApi offerId).bind fun api =>
        let db := fetchDb planId
        let diff := syncDiff db api
        let to_add_int := _coerce_ids_to_int (diff.1.map .vStr)
        if to_add_int = [] then .ok ⟨offerId, none⟩
        else .ok ⟨offerId, some (call_stoq_add_variants probe to_add_int 75)⟩
    | _, _ => .error "Offer not found for internal_name Preorder-20wks-40."

/-- The `for offer_id, plan_id, internal_nm in offer_ids` loop of `main`: an
uncaught error from one offer ends the whole run (Python propagates the
exception out of the loop). -/
def main_run (fetchApi : String → Except String (List String))
    (fetchDb : String → List String) (probe : List Int → TryRes) :
    List OfferRow → Except String (List OfferOutcome)
  | [] => .ok []
  | row :: rest =>
    (process_offer fetchApi fetchDb probe row).bind fun o =>
      (main_run fetchApi fetchDb probe rest).map fun os => o :: os

end Step12

namespace Step09

/-- Outcome of one post in `stoq_add_variants` (Step09), as classified by
`_add_chunk_or_bisect`: 2xx (`ok`); a 422 whose parsed body carries the given
`existing_variants` list (an unparsable or listless body is the empty list);
or any other status. -/
inductive AddResp where
  | ok
  | unproc (existing : List Int)
  | other (status : Nat)
deriving DecidableEq

/-- The return of `_add_chunk_or_bisect`: the `(success, skipped_ids)` pair,
plus the log of the batches it posted. -/
structure BisectOut where
  ok : Bool
  skipped : List Int
  posted : List (List Int)
deriving DecidableEq

/-- The second strip round of `_add_chunk_or_bisect` (Step09 lines 160-172):
`remainder2` is `remainder` with the second `existing_variants` list removed;
a third post is made, and any non-2xx answer sends `remainder2` to the
bisection step. -/
def stripRetry2 (oracle : List Int → AddResp) (batch remainder remainder2 : List Int) :
    BisectOut ⊕ (List Int × List (List Int)) :=
  if remainder2 = [] then .inl ⟨true, [], [batch, remainder]⟩
  else
    match oracle remainder2 with
    | .ok => .inl ⟨true, [], [batch, remainder, remainder2]⟩
    | _ => .inr (remainder2, [batch, remainder, remainder2])

/-- The retry-the-remainder part of the strip phase (the body guarded by
`if existing:` in Step09, lines 143-172): `remainder` is the batch with the
listed existing ids removed; it is posted once, and a second 422 with a
further explicit list triggers the second strip round. -/
def stripRetry (oracle : List Int → AddResp) (batch remainder : List Int) :
    BisectOut ⊕ (List Int × List (List Int)) :=
  if remainder = [] then .inl ⟨true, [], [batch]⟩
  else
    match oracle remainder with
    | .ok => .inl ⟨true, [], [batch, remainder]⟩
    | .other _ => .inl ⟨false, remainder, [batch, remainder]⟩
    | .unproc existing2 =>
      if existing2 = [] then .inr (remainder, [batch, remainder])
      else
        stripRetry2 oracle batch remainder
          (remainder.filter fun v => decide (v ∉ existing2))

/-- The non-recursive front of `_add_chunk_or_bisect` (Step09 lines 130-175):
post the batch; on 2xx or a non-422 status return at once; on a 422 with an
explicit `existing_variants` list strip those ids and retry the remainder, up
to two strip rounds, before falling back to bisection.  `inl` is a finished
result; `inr` is the pair of the batch that the bisection step must now split
and the posts made so far. -/
def stripPhase (oracle : List Int → AddResp) (batch : List Int) :
    BisectOut ⊕ (List Int × List (List Int)) :=
  match oracle batch with
  | .ok => .inl ⟨true, [], [batch]⟩
  | .other _ => .inl ⟨false, batch, [batch]⟩
  | .unproc existing =>
    if existing = [] then .inr (batch, [batch])
    else
      stripRetry oracle batch (batch.filter fun v => decide (v ∉ existing))

lemma stripRetry2_inr {oracle : List Int → AddResp} {batch rem rem2 btb : List Int}
    {posted : List (List Int)}
    (h : stripRetry2 oracle batch rem rem2 = .inr (btb, posted)) : btb = rem2 := by
  unfold stripRetry2 at h
  split at h
  · exact absurd h (by simp)
  · split at h
    · exact absurd h (by simp)
    · exact ((Prod.mk.injEq _ _ _ _).mp (by simpa using h)).1.symm

lemma stripRetry_length {oracle : List Int → AddResp} {batch rem btb : List Int}
    {posted : List (List Int)}
    (h : stripRetry oracle batch rem = .inr (btb, posted)) : btb.length ≤ rem.length := by
  unfold stripRetry at h
  split at h
  · exact absurd h (by simp)
  · split at h
    · exact absurd h (by simp)
    · exact absurd h (by simp)
    · split at h
      · obtain ⟨rfl, -⟩ : rem = btb ∧ _ := by simpa using h
        exact le_refl _
      · rw [stripRetry2_inr h]
        exact List.length_filter_le _ _

lemma stripPhase_length {oracle : List Int → AddResp} {batch btb : List Int}
    {posted : List (List Int)} (h : stripPhase oracle batch = .inr (btb, posted)) :
    btb.length ≤ batch.length := by
  unfold stripPhase at h
  split at h
  · exact absurd h (by simp)
  · exact absurd h (by simp)
  · split at h
    · obtain ⟨rfl, -⟩ : batch = btb ∧ _ := by simpa using h
      exact le_refl _
    · exact le_trans (stripRetry_length h) (List.length_filter_le _ _)

/-- The recursive `_add_chunk_or_bisect` (Step09 lines 122-189).  After the
strip phase, a single still-failing id is returned as skipped with success
(the Python `return True, [bad]`); a longer batch is split in half and both
halves re-enter the function, their outcomes combined with `and` and list
concatenation. -/
def _add_chunk_or_bisect (oracle : List Int → AddResp) : List Int → BisectOut
  | [] => ⟨true, [], []⟩
  | x :: xs =>
    match hsp : stripPhase oracle (x :: xs) with
    | .inl out => out
    | .inr (btb, posted) =>
      if btb.length = 1 then ⟨true, btb, posted⟩
      else
        let mid := btb.length / 2
        let oL := _add_chunk_or_bisect oracle (btb.take mid)
        let oR := _add_chunk_or_bisect oracle (btb.drop mid)
        ⟨oL.ok && oR.ok, oL.skipped ++ oR.skipped, posted ++ oL.posted ++ oR.posted⟩
  termination_by l => l.length
  decreasing_by
    · have hb := stripPhase_length hsp
      simp only [List.length_take, List.length_cons] at *
      omega
    · have hb := stripPhase_length hsp
      simp only [List.length_drop, List.length_cons] at *
      omega

/-- `fetch_variant_ids_for_offer` (Step09 lines 61-73): each row contributes
its `variant_id` value when present; `None` values are skipped; values that
`int()` rejects are silently dropped by the bare `except: pass`; the result is
`sorted(set(ids))`. -/
def fetch_variant_ids_for_offer (rows : List (Option PyVal)) : List Int :=
  List.insertionSort (· ≤ ·)
    ((rows.filterMap fun r => r.bind pyToInt).dedup)

/-- The `for offer in offers` loop of Step09 `main` (lines 242-263), at the
granularity of the `(ok, info)` result of `stoq_add_variants` for each offer
(`addRes`, which is `Except.error` when the add raises, e.g. out of
`_post_with_retries`).  An offer with a falsy plan id is skipped with a print;
an `ok=False` offer is appended to `failures` and the loop continues; an
exception aborts the run.  Returns `(visited, succeeded, failures)`. -/
def main_model (addRes : Nat → Except String Bool) :
    List (Nat × Option String) → List Nat × Nat × List Nat →
    Except String (List Nat × Nat × List Nat)
  | [], st => .ok st
  | (oid, plan) :: rest, (vis, succeeded, fails) =>
    if Step12.falsy plan then main_model addRes rest (vis ++ [oid], succeeded, fails)
    else
      match addRes oid with
      | .error e => .error e
      | .ok true => main_model addRes rest (vis ++ [oid], succeeded + 1, fails)
      | .ok false => main_model addRes rest (vis ++ [oid], succeeded, fails ++ [oid])

end Step09

/-! Concrete oracles used by the claim theorems and witnesses. -/

/-- An offer that is locked for its first three calls and then succeeds. -/
def lockTry1 : Nat → TryRes := fun i => if i < 3 then .fail jobMsg else .succ

/-- A remote on which exactly the member 2 always fails validation: a batch
gets a 2xx iff it does not contain 2. -/
def oneBadProbe : List Int → Bool := fun b => decide ((2 : Int) ∉ b)

/-- A remote that accepts exactly the batch `[2]` and rejects every other
batch with a generic 422 body. -/
def c6probe : List Int → TryRes :=
  fun b => if b = [2] then .succ else .fail "HTTP 422: Unprocessable Entity"

/-- A transport trace: a network error, then a 503 carrying `Retry-After: 7`,
then a 404. -/
def c7oracle : Nat → PostCall :=
  fun i => if i = 0 then .exc else if i = 1 then .resp 503 (some (some 7)) else .resp 404 none

/-- The remote of the spec's strip scenario: `[5, 6, 7, 8]` is rejected with
`existing_variants = [6]`, the remainder `[5, 7, 8]` succeeds. -/
def oracle4 : List Int → Step09.AddResp := fun b =>
  if b = [5, 6, 7, 8] then .unproc [6]
  else if b = [5, 7, 8] then .ok
  else .other 500

/-! Helper lemmas shared by the claim theorems. -/

lemma jobMsg_isJob : _is_job_in_progress jobMsg = true := by decide

lemma jobMsg_not422 : Step12.is422ish jobMsg = false := by decide

lemma jobMsg_ne : jobMsg ≠ "" := by decide

lemma chunksOf75_single (x : Int) : Step12.chunksOf 75 [x] = [[x]] := by
  simp only [Step12.chunksOf]
  norm_num
  simp [Step12.chunksOf]

lemma syncDiff_fst_mem {α : Type} [LinearOrder α] [DecidableEq α]
    (desired remote : List α) (x : α) :
    x ∈ (syncDiff desired remote).1 ↔ x ∈ desired ∧ x ∉ remote := by
  simp only [syncDiff]
  rw [(List.perm_insertionSort _ _).mem_iff]
  simp [List.mem_filter, List.mem_dedup]

lemma syncDiff_fst_sorted {α : Type} [LinearOrder α] [DecidableEq α]
    (desired remote : List α) : (syncDiff desired remote).1.Sorted (· ≤ ·) :=
  List.sorted_insertionSort _ _

lemma syncDiff_fst_nodup {α : Type} [LinearOrder α] [DecidableEq α]
    (desired remote : List α) : (syncDiff desired remote).1.Nodup :=
  ((List.perm_insertionSort _ _).nodup_iff).mpr
    ((List.nodup_dedup desired).filter _)

lemma syncDiff_swap {α : Type} [LinearOrder α] [DecidableEq α]
    (desired remote : List α) :
    (syncDiff desired remote).2 = (syncDiff remote desired).1 := rfl

lemma coerceLoop_fst : ∀ ids : List PyVal, (coerceLoop ids).1 = ids.filterMap pyToInt := by
  intro ids
  induction ids with
  | nil => rfl
  | cons x xs ih =>
    simp only [coerceLoop, List.filterMap_cons]
    cases h : pyToInt x <;> simp [h, ih]

lemma lockWait_locked_aux (try_ : Nat → TryRes) (ids : List Int)
    (h : ∀ i, try_ i = .fail jobMsg) :
    ∀ (fuel i : Nat) (elapsed sleepS : ℚ) (sleeps : List ℚ) (posted : List (List Int)),
      1 ≤ sleepS → 180 ≤ elapsed + fuel →
      ∃ n ss ps,
        Step12.lockWaitAux try_ ids 180 (9 / 5) 12 (fuel + 1) i elapsed sleepS sleeps posted
          = some ⟨false, some jobMsg, n, ss, ps⟩ := by
  intro fuel
  induction fuel with
  | zero =>
    intro i elapsed sleepS sleeps posted hs he
    refine ⟨i + 1, sleeps, posted ++ [ids], ?_⟩
    simp only [Step12.lockWaitAux, h i, jobMsg_isJob, if_true]
    rw [if_pos (by push_cast at he; linarith)]
  | succ f ih =>
    intro i elapsed sleepS sleeps posted hs he
    by_cases hcut : (180 : ℚ) ≤ elapsed
    · refine ⟨i + 1, sleeps, posted ++ [ids], ?_⟩
      simp only [Step12.lockWaitAux, h i, jobMsg_isJob, if_true]
      rw [if_pos hcut]
    · have hrec := ih (i + 1) (elapsed + sleepS) (min 12 (sleepS * (9 / 5)))
        (sleeps ++ [sleepS]) (posted ++ [ids])
        (le_min (by norm_num) (by nlinarith)) (by push_cast at he ⊢; linarith)
      obtain ⟨n, ss, ps, hres⟩ := hrec
      refine ⟨n, ss, ps, ?_⟩
      simp only [Step12.lockWaitAux, h i, jobMsg_isJob, if_true]
      rw [if_neg hcut]
      exact hres

lemma lockWait_3locks (try_ : Nat → TryRes) (ids : List Int) (fuel : Nat)
    (h3 : ∀ i < 3, try_ i = .fail jobMsg) (h4 : try_ 3 = .succ) :
    Step12._try_add_chunk_with_lock_wait try_ ids (fuel + 4)
      = some ⟨true, none, 4, [1, 9 / 5, 81 / 25], List.replicate 4 ids⟩ := by
  have e0 := h3 0 (by norm_num)
  have e1 := h3 1 (by norm_num)
  have e2 := h3 2 (by norm_num)
  rw [Step12._try_add_chunk_with_lock_wait]
  rw [show fuel + 4 = (fuel + 3) + 1 from rfl]
  rw [Step12.lockWaitAux]
  rw [e0]
  simp only [jobMsg_isJob, if_true]
  rw [if_neg (by norm_num)]
  rw [show fuel + 3 = (fuel + 2) + 1 from rfl]
  rw [Step12.lockWaitAux]
  rw [e1]
  simp only [jobMsg_isJob, if_true]
  rw [if_neg (by norm_num)]
  rw [show fuel + 2 = (fuel + 1) + 1 from rfl]
  rw [Step12.lockWaitAux]
  rw [e2]
  simp only [jobMsg_isJob, if_true]
  rw [if_neg (by norm_num)]
  rw [Step12.lockWaitAux]
  rw [h4]
  norm_num [List.replicate]

lemma post12_transient_aux (oracle : Nat → PostCall) (base : ℚ) :
    ∀ (n i r : Nat), (∀ j < n, transientCall (oracle (i + j)) = true) → n ≤ r →
    ∀ (s : Nat) (ra : Option (Option ℚ)), oracle (i + n) = .resp s ra →
    transientStatus s = false →
    Step12._post_with_retries oracle base i r
      = ⟨.returned s, i + n + 1, delays oracle base i n⟩ := by
  intro n
  induction n with
  | zero =>
    intro i r _ _ s ra ho hs
    rw [Nat.add_zero] at ho
    match r with
    | 0 =>
      simp only [Step12._post_with_retries, ho]
      rfl
    | r + 1 =>
      simp only [Step12._post_with_retries, ho, hs]
      rfl
  | succ m ih =>
    intro i r hT hle s ra ho hs
    match r with
    | 0 => omega
    | r + 1 =>
      have h0 : transientCall (oracle i) = true := by
        have := hT 0 (by omega)
        simpa using this
      have hT2 : ∀ j < m, transientCall (oracle (i + 1 + j)) = true := by
        intro j hj
        have := hT (j + 1) (by omega)
        rwa [show i + (j + 1) = i + 1 + j by omega] at this
      have ho2 : oracle (i + 1 + m) = .resp s ra := by
        rwa [show i + 1 + m = i + (m + 1) by omega]
      have hrec := ih (i + 1) r hT2 (by omega) s ra ho2 hs
      match hoc : oracle i with
      | .exc =>
        simp only [Step12._post_with_retries, hoc, hrec, consSleep, PostOut.mk.injEq]
        refine ⟨trivial, by omega, ?_⟩
        simp [delays, delayOf, hoc]
      | .resp s2 ra2 =>
        have hts : transientStatus s2 = true := by
          rw [hoc] at h0; simpa [transientCall] using h0
        simp only [Step12._post_with_retries, hoc, hts, if_true, hrec, consSleep,
          PostOut.mk.injEq]
        refine ⟨trivial, by omega, ?_⟩
        simp [delays, delayOf, hoc, raDelay]

lemma post12_exhaust_aux (oracle : Nat → PostCall) (base : ℚ) :
    ∀ (r i : Nat), (∀ j ≤ r, transientCall (oracle (i + j)) = true) →
    (Step12._post_with_retries oracle base i r).calls = i + r + 1 := by
  intro r
  induction r with
  | zero =>
    intro i _
    match hoc : oracle i with
    | .exc => simp [Step12._post_with_retries, hoc]
    | .resp s ra => simp [Step12._post_with_retries, hoc]
  | succ m ih =>
    intro i hT
    have h0 : transientCall (oracle i) = true := by
      have := hT 0 (by omega)
      simpa using this
    have hT2 : ∀ j ≤ m, transientCall (oracle (i + 1 + j)) = true := by
      intro j hj
      have := hT (j + 1) (by omega)
      rwa [show i + (j + 1) = i + 1 + j by omega] at this
    have hrec := ih (i + 1) hT2
    match hoc : oracle i with
    | .exc =>
      simp only [Step12._post_with_retries, hoc, consSleep]
      omega
    | .resp s2 ra2 =>
      have hts : transientStatus s2 = true := by
        rw [hoc] at h0; simpa [transientCall] using h0
      simp only [Step12._post_with_retries, hoc, hts, if_true, consSleep]
      omega

lemma flag_iff (probe : List Int → TryRes) (ids : List Int) (n : Nat) :
    (Step12.call_stoq_add_variants probe ids n).flag = true
      ↔ (Step12.call_stoq_add_variants probe ids n).added ≠ [] := by
  simp only [Step12.call_stoq_add_variants]
  set st := (Step12.chunksOf n ids).foldl (Step12.processChunk probe) ⟨[], [], none, []⟩
  cases h : st.added <;> simp [h]

lemma main_run_error (fetchApi : String → Except String (List String))
    (fetchDb : String → List String) (probe : List Int → TryRes)
    (row : Step12.OfferRow) (rest : List Step12.OfferRow) (e : String)
    (h : Step12.process_offer fetchApi fetchDb probe row = .error e) :
    Step12.main_run fetchApi fetchDb probe (row :: rest) = .error e := by
  simp [Step12.main_run, h, Except.bind]

/-! The claim theorems. -/

/-- C1: against the claim that the bisection resolver ends with
`appliedOk = allMembers \ {k}` and `skippedInvalid = {k}` when exactly one
member `k` always fails validation, the Step12 resolver evaluated on the batch
`[1, 2]` with `k = 2` (a probe succeeds iff its batch avoids 2) credits both
members as added and skips nothing, because its second block re-probes the
left half `[1]` (see the posted log) while crediting the right half; the
Step11 sibling, which probes the right half, ends as the claim requires. -/
theorem C1_step12_second_probe_left :
    Step12._divide_and_conquer_on_422 oneBadProbe [1, 2] ⟨[], [], []⟩
      = ⟨[], [1, 2], [[1], [1]]⟩
    ∧ Step11._divide_and_conquer_on_422 oneBadProbe [1, 2] ⟨[], [], []⟩
      = ⟨[2], [1], [[1], [2]]⟩ := by
  constructor
  · simp [Step12._divide_and_conquer_on_422, oneBadProbe]
  · simp [Step11._divide_and_conquer_on_422, oneBadProbe]

/-- C2: against the claim that the set differencer identifies `"123"`, `123`
and `"123.0"` as one member, the differencer of `main` compares the raw
strings: with desired `{"123.0"}` and remote `{"123"}` it reports the member
both as an addition and as a removal (spurious churn), and the later integer
coercion rejects `"123.0"` outright, so the addition is then dropped. -/
theorem C2_differencer_compares_raw_strings :
    syncDiff ["123.0"] ["123"] = (["123.0"], ["123"])
    ∧ pyToInt (.vStr "123.0") = none
    ∧ pyToInt (.vStr "123") = some 123 := by
  refine ⟨by decide, by decide, by decide⟩

/-- C3: the set differencer returns exactly `toAdd = desired \ remote` and
`toRemove = remote \ desired`, each deduplicated and sorted ascending in the
order of the member type, and on desired `{100, 101, 102}` against remote
`{101, 103}` it returns `toAdd = [100, 102]`, `toRemove = [103]`. -/
theorem C3_set_differencer_correct :
    (∀ {α : Type} [LinearOrder α] [DecidableEq α] (desired remote : List α),
      ((syncDiff desired remote).1.Sorted (· ≤ ·) ∧ (syncDiff desired remote).1.Nodup
        ∧ ∀ x, x ∈ (syncDiff desired remote).1 ↔ x ∈ desired ∧ x ∉ remote)
      ∧ ((syncDiff desired remote).2.Sorted (· ≤ ·) ∧ (syncDiff desired remote).2.Nodup
        ∧ ∀ x, x ∈ (syncDiff desired remote).2 ↔ x ∈ remote ∧ x ∉ desired))
    ∧ syncDiff (α := Int) [100, 101, 102] [101, 103] = ([100, 102], [103]) := by
  constructor
  · intro α _ _ desired remote
    exact ⟨⟨syncDiff_fst_sorted desired remote, syncDiff_fst_nodup desired remote,
        syncDiff_fst_mem desired remote⟩,
      ⟨syncDiff_fst_sorted remote desired, syncDiff_fst_nodup remote desired,
        syncDiff_fst_mem remote desired⟩⟩
  · decide

/-- C4 counterexample: on the spec's own scenario — batch `[5, 6, 7, 8]`
rejected with `existing_variants = [6]`, remainder `[5, 7, 8]` succeeding —
the Step09 resolver reports success with `skipped = []`: the stripped member 6
is not recorded as skipped, where the claim requires `skippedInvalid = [6]`. -/
theorem C4_stripped_member_not_recorded_cx :
    (Step09._add_chunk_or_bisect oracle4 [5, 6, 7, 8]).ok = true
    ∧ (Step09._add_chunk_or_bisect oracle4 [5, 6, 7, 8]).skipped = [] := by
  have h : Step09._add_chunk_or_bisect oracle4 [5, 6, 7, 8]
      = ⟨true, [], [[5, 6, 7, 8], [5, 7, 8]]⟩ := by
    simp [Step09._add_chunk_or_bisect, Step09.stripPhase, Step09.stripRetry, oracle4]
  rw [h]
  exact ⟨rfl, rfl⟩

/-- C4 as amended: when a batch is rejected with a nonempty explicit
`existing_variants` list and the stripped remainder succeeds on the single
retry, the resolver posts exactly the batch and then the remainder (the
`posted` log), reports success — and records nothing as skipped: the stripped
members appear in no output of the resolver. -/
theorem C4_strip_and_retry_amended (oracle : List Int → Step09.AddResp)
    (batch existing : List Int)
    (h1 : oracle batch = .unproc existing) (h2 : existing ≠ [])
    (h3 : batch.filter (fun v => decide (v ∉ existing)) ≠ [])
    (h4 : oracle (batch.filter fun v => decide (v ∉ existing)) = .ok) :
    Step09._add_chunk_or_bisect oracle batch
      = ⟨true, [], [batch, batch.filter fun v => decide (v ∉ existing)]⟩ := by
  match batch with
  | [] => simp at h3
  | x :: xs =>
    have hsp : Step09.stripPhase oracle (x :: xs)
        = .inl ⟨true, [], [x :: xs, (x :: xs).filter fun v => decide (v ∉ existing)]⟩ := by
      simp only [Step09.stripPhase, h1]
      rw [if_neg h2]
      rw [Step09.stripRetry, if_neg h3, h4]
    rw [Step09._add_chunk_or_bisect, hsp]

/-- C4 witness: the amended statement at the scenario input. -/
theorem C4_strip_and_retry_witness :
    Step09._add_chunk_or_bisect oracle4 [5, 6, 7, 8]
      = ⟨true, [], [[5, 6, 7, 8], [5, 7, 8]]⟩ := by
  have hf : List.filter (fun v => decide (v ∉ ([6] : List Int))) [5, 6, 7, 8]
      = [5, 7, 8] := by decide
  have h := C4_strip_and_retry_amended oracle4 [5, 6, 7, 8] [6]
    (by decide) (by decide) (by decide) (by decide)
  rw [hf] at h
  exact h

/-- C5: the lock-wait wrapper retries the identical, unsplit batch on a
`ResourceLocked` outcome.  First conjunct: a batch locked for its first three
calls and then accepted is posted four times unchanged, with the sleeps
1, 1.8 and 3.24 seconds (start 1, factor 1.8, under the 12-second cap), and is
returned as a success.  Second conjunct: under a permanent lock the loop
terminates once the slept time reaches the 180-second budget and returns the
lock error as an ordinary failure value — no exception.  Third and fourth
conjuncts: through `call_stoq_add_variants`, a batch whose lock-wait ends in
success is credited to `added_ok`, and one whose lock-wait times out leaves
`added_ok` and `skipped_invalid` empty with the lock error recorded in
`first_error`, after which the loop goes on to the next chunk. -/
theorem C5_lock_wait_policy :
    (∀ (try_ : Nat → TryRes) (ids : List Int) (fuel : Nat),
      (∀ i < 3, try_ i = .fail jobMsg) → try_ 3 = .succ →
      Step12._try_add_chunk_with_lock_wait try_ ids (fuel + 4)
        = some ⟨true, none, 4, [1, 9 / 5, 81 / 25], List.replicate 4 ids⟩)
    ∧ (∀ (try_ : Nat → TryRes) (ids : List Int) (fuel : Nat),
      180 ≤ (fuel : ℚ) → (∀ i, try_ i = .fail jobMsg) →
      ∃ n ss ps, Step12._try_add_chunk_with_lock_wait try_ ids (fuel + 1)
        = some ⟨false, some jobMsg, n, ss, ps⟩)
    ∧ Step12.call_stoq_add_variants (fun _ => .succ) [1, 2, 3] 75
        = ⟨[1, 2, 3], [], none, 3, true, [[1, 2, 3]]⟩
    ∧ Step12.call_stoq_add_variants (fun _ => .fail jobMsg) [7] 75
        = ⟨[], [], some jobMsg, 1, false, [[7]]⟩ := by
  refine ⟨lockWait_3locks, ?_, ?_, ?_⟩
  · intro try_ ids fuel hf h
    have hh := lockWait_locked_aux try_ ids h fuel 0 0 1 [] [] le_rfl (by simpa using hf)
    simpa [Step12._try_add_chunk_with_lock_wait] using hh
  · have h1 : Step12.chunksOf 75 [1, 2, 3] = [[1, 2, 3]] := by
      simp only [Step12.chunksOf]
      norm_num
      simp [Step12.chunksOf]
    simp [Step12.call_stoq_add_variants, h1, Step12.processChunk]
  · simp [Step12.call_stoq_add_variants, chunksOf75_single, Step12.processChunk,
      Step12.keepFirst, jobMsg_not422, jobMsg_ne]

/-- C5 witness: the lock-wait conclusions at concrete inputs. -/
theorem C5_lock_wait_witness :
    Step12._try_add_chunk_with_lock_wait lockTry1 [5, 6] 44
      = some ⟨true, none, 4, [1, 9 / 5, 81 / 25], List.replicate 4 [5, 6]⟩
    ∧ ∃ n ss ps, Step12._try_add_chunk_with_lock_wait (fun _ => .fail jobMsg) [5, 6] 200
      = some ⟨false, some jobMsg, n, ss, ps⟩ := by
  constructor
  · exact C5_lock_wait_policy.1 lockTry1 [5, 6] 40 (by decide) (by decide)
  · exact C5_lock_wait_policy.2.1 (fun _ => .fail jobMsg) [5, 6] 199 (by norm_num)
      (fun i => rfl)

/-- C6 counterexample: the claim equates the returned flag with
`len(skipped) == 0 or len(added) >= 1`, but on an empty run the code returns
`False` while that predicate holds, because line 402 also conjoins
`len(added_ok) > 0`. -/
theorem C6_overall_ok_cx :
    (Step12.call_stoq_add_variants (fun _ => .succ) [] 75).flag = false
    ∧ ((Step12.call_stoq_add_variants (fun _ => .succ) [] 75).skipped.length = 0
      ∨ 1 ≤ (Step12.call_stoq_add_variants (fun _ => .succ) [] 75).added.length) := by
  constructor
  · simp [Step12.call_stoq_add_variants, Step12.chunksOf]
  · left
    simp [Step12.call_stoq_add_variants, Step12.chunksOf]

/-- C6 as amended: the overall-success flag of `call_stoq_add_variants` is
equivalent to `added_ok` being nonempty (the written disjunct
`len(skipped) == 0 or len(added) >= 1` is made redundant by the conjoined
`len(added_ok) > 0`); and there is a run — ids `[1, 2, 3]` on a remote that
accepts only `[2]` — with a skipped member that is still reported as an
overall success. -/
theorem C6_overall_ok_amended :
    (∀ (probe : List Int → TryRes) (ids : List Int) (n : Nat), 0 < n →
      ((Step12.call_stoq_add_variants probe ids n).flag = true
        ↔ (Step12.call_stoq_add_variants probe ids n).added ≠ []))
    ∧ (Step12.call_stoq_add_variants c6probe [1, 2, 3] 75).flag = true
    ∧ (Step12.call_stoq_add_variants c6probe [1, 2, 3] 75).skipped = [1]
    ∧ (Step12.call_stoq_add_variants c6probe [1, 2, 3] 75).added = [2, 3] := by
  constructor
  · intro probe ids n _
    exact flag_iff probe ids n
  · have h1 : Step12.chunksOf 75 [1, 2, 3] = [[1, 2, 3]] := by
      simp only [Step12.chunksOf]
      norm_num
      simp [Step12.chunksOf]
    have hc : c6probe [1, 2, 3] = .fail "HTTP 422: Unprocessable Entity" := by decide
    have h422 : ("HTTP 422: Unprocessable Entity" : String) ≠ ""
        ∧ Step12.is422ish "HTTP 422: Unprocessable Entity" = true := by decide
    have h2 : Step12._divide_and_conquer_on_422 (fun b => (c6probe b).isOk) [1, 2, 3]
        ⟨[], [], [[1, 2, 3]]⟩ = ⟨[1], [2, 3], [[1, 2, 3], [1], [1], [2], [2]]⟩ := by
      simp [Step12._divide_and_conquer_on_422, c6probe, TryRes.isOk]
    simp only [Step12.call_stoq_add_variants, h1, List.foldl, Step12.processChunk, hc,
      List.nil_append]
    rw [if_pos h422]
    simp only [h2]
    norm_num

/-- C6 witness: the amended equivalence at a concrete run. -/
theorem C6_overall_ok_witness :
    (Step12.call_stoq_add_variants (fun _ => .succ) [4] 75).flag = true
      ↔ (Step12.call_stoq_add_variants (fun _ => .succ) [4] 75).added ≠ [] :=
  C6_overall_ok_amended.1 (fun _ => .succ) [4] 75 (by norm_num)

/-- C7 counterexample: the claim has every 5xx response retried up to
`maxRetries` (default 3, so 4 posts), but the Step09 transport returns an HTTP
505 after a single post — it retries only the statuses 429, 500, 502, 503 and
504. -/
theorem C7_step09_no_retry_on_505_cx :
    Step09.post (fun _ => .resp 505 none) = ⟨.returned 505, 1, []⟩ := by
  decide

/-- C7 as amended: the Step11/Step12 transport behaves as claimed — while the
outcomes are network errors, 429s or 5xx statuses it retries the identical
payload, sleeping the parsed `Retry-After` when present and
`base * 2 ** k` before the (k+1)-th retry otherwise, returns the first
non-transient response at once, and posts at most `maxRetries + 1` times
(first and second conjuncts).  The Step09 variant differs: it makes at most
`MAX_RETRIES = 3` posts in total (2 retries) and ignores `Retry-After`, as the
third conjunct shows on a remote that always answers 503 with
`Retry-After: 7` — three posts, sleeps `[1, 2]`. -/
theorem C7_transient_retry_amended :
    (∀ (oracle : Nat → PostCall) (base : ℚ) (maxR n s : Nat) (ra : Option (Option ℚ)),
      (∀ j < n, transientCall (oracle j) = true) → n ≤ maxR →
      oracle n = .resp s ra → transientStatus s = false →
      Step12.post oracle maxR base = ⟨.returned s, n + 1, delays oracle base 0 n⟩)
    ∧ (∀ (oracle : Nat → PostCall) (base : ℚ) (maxR : Nat),
      (∀ j ≤ maxR, transientCall (oracle j) = true) →
      (Step12.post oracle maxR base).calls = maxR + 1)
    ∧ Step09.post (fun _ => .resp 503 (some (some 7))) = ⟨.returned 503, 3, [1, 2]⟩ := by
  refine ⟨?_, ?_, by decide⟩
  · intro oracle base maxR n s ra hT hle ho hs
    have h := post12_transient_aux oracle base n 0 maxR (by simpa using hT) hle s ra
      (by simpa using ho) hs
    simpa [Step12.post] using h
  · intro oracle base maxR hT
    have h := post12_exhaust_aux oracle base maxR 0 (by simpa using hT)
    simpa [Step12.post] using h

/-- C7 witness: the amended transport behaviour on the concrete trace
`c7oracle` — a network error, then a 503 with `Retry-After: 7`, then a 404:
three posts, sleeps `[1, 7]`, the 404 returned without retry. -/
theorem C7_transient_retry_witness :
    Step12.post c7oracle 3 1 = ⟨.returned 404, 3, [1, 7]⟩ := by
  rw [C7_transient_retry_amended.1 c7oracle 1 3 2 404 none (by decide) (by decide)
    rfl (by decide)]
  norm_num [delays, delayOf, c7oracle, raDelay]

/-- C8 counterexample: a run over two offers in which the first raises (its
plan id is missing, the `raise RuntimeError` of Step12 `main`) ends as that
error: the second offer is never reconciled and no per-offer outcome is
produced, where the claim requires each offer's failures to be captured and
the run to proceed. -/
theorem C8_error_aborts_run_cx :
    Step12.main_run (fun _ => .ok []) (fun _ => []) (fun _ => .succ)
      [⟨some "A", none, some "X"⟩, ⟨some "B", some "P", some "Y"⟩]
      = .error "Offer not found for internal_name Preorder-20wks-40." := by
  rfl

/-- C8 as amended: an error raised while reconciling one offer propagates and
aborts the whole run (first conjunct: whenever `process_offer` errors, the
run over that offer and any remaining ones is that error).  Only a failure
that is returned as a value rather than raised is captured: the Step09 main
loop appends an `ok = False` offer to its failures list and continues, as the
second conjunct shows on three offers of which only the first add succeeds —
all three are visited, the two failures are recorded. -/
theorem C8_propagation_amended :
    (∀ (fetchApi : String → Except String (List String))
      (fetchDb : String → List String) (probe : List Int → TryRes)
      (row : Step12.OfferRow) (rest : List Step12.OfferRow) (e : String),
      Step12.process_offer fetchApi fetchDb probe row = .error e →
      Step12.main_run fetchApi fetchDb probe (row :: rest) = .error e)
    ∧ Step09.main_model (fun o => Except.ok (decide (o = 1)))
        [(1, some "p1"), (2, some "p2"), (3, some "p3")] ([], 0, [])
        = .ok ([1, 2, 3], 1, [2, 3]) := by
  exact ⟨main_run_error, by rfl⟩

/-- C8 witness: the propagation conclusion at a concrete offer with a missing
plan id. -/
theorem C8_propagation_witness :
    Step12.main_run (fun _ => .ok []) (fun _ => []) (fun _ => .succ)
      [⟨some "A", none, some "X"⟩]
      = .error "Offer not found for internal_name Preorder-20wks-40." :=
  C8_propagation_amended.1 (fun _ => .ok []) (fun _ => []) (fun _ => .succ)
    ⟨some "A", none, some "X"⟩ [] _ rfl

/-- C9 counterexample: an offer whose desired members are the single
non-coercible value `"abc"` produces the outcome `⟨"A", none⟩`: the value is
excluded from every remote call, but no add summary is produced at all, so no
skipped or malformed count of the per-offer result mentions it — it is only
printed to the console, where the claim requires it surfaced in the reported
outcome. -/
theorem C9_malformed_not_surfaced_cx :
    Step12.process_offer (fun _ => .ok []) (fun _ => ["abc"]) (fun _ => .succ)
      ⟨some "A", some "P", some "X"⟩ = .ok ⟨"A", none⟩ := by
  rfl

/-- C9 as amended: values that cannot be coerced to an integer are excluded
from remote calls — the coercion returns exactly the coercible values (first
conjunct) — but they are not counted in any reported outcome: Step11/Step12
only print them, and Step09's row reader drops them silently with a bare
`except: pass`, as the second conjunct shows — `"abc"` leaves no trace in the
fetched id list. -/
theorem C9_malformed_excluded_amended :
    (∀ ids : List PyVal, _coerce_ids_to_int ids = ids.filterMap pyToInt)
    ∧ Step09.fetch_variant_ids_for_offer
        [some (.vStr "abc"), some (.vStr "12"), none, some (.vInt 5)] = [5, 12] := by
  exact ⟨coerceLoop_fst, by decide⟩

/-- C10: a batch of exactly one member whose add call still fails validation
is recorded in `skipped_invalid` and nowhere else.  First conjunct (Step12):
for any probe whose answer on `[x]` is a nonempty error passing the 422 test,
`call_stoq_add_variants` on `[x]` ends with `skipped = [x]`, `added = []` and
only the informational 422 note in `first_error` — nothing is raised and the
member is not a hard failure.  Second conjunct (Step09): a single id rejected
with a generic 422 is returned as skipped with success, after the one post of
`[x]`. -/
theorem C10_singleton_skipped :
    (∀ (probe : List Int → TryRes) (x : Int) (e : String),
      probe [x] = .fail e → e ≠ "" → Step12.is422ish e = true →
      (Step12.call_stoq_add_variants probe [x] 75).skipped = [x]
      ∧ (Step12.call_stoq_add_variants probe [x] 75).added = []
      ∧ (Step12.call_stoq_add_variants probe [x] 75).firstError
          = some (Step12.mkErr422 e))
    ∧ (∀ (oracle : List Int → Step09.AddResp) (x : Int),
      oracle [x] = .unproc [] →
      Step09._add_chunk_or_bisect oracle [x] = ⟨true, [x], [[x]]⟩) := by
  constructor
  · intro probe x e hp hne h422
    have h2 : Step12._divide_and_conquer_on_422 (fun b => (probe b).isOk) [x]
        ⟨[], [], [[x]]⟩ = ⟨[x], [], [[x]]⟩ := by
      simp [Step12._divide_and_conquer_on_422]
    simp only [Step12.call_stoq_add_variants, chunksOf75_single, List.foldl,
      Step12.processChunk, hp, List.nil_append]
    rw [if_pos ⟨hne, h422⟩]
    simp [h2, Step12.keepFirst]
  · intro oracle x h
    have hsp : Step09.stripPhase oracle [x] = .inr ([x], [[x]]) := by
      simp only [Step09.stripPhase, h]
      simp
    rw [Step09._add_chunk_or_bisect, hsp]
    norm_num

/-- C10 witness: both conclusions at the member 9 with concrete rejecting
remotes. -/
theorem C10_singleton_skipped_witness :
    ((Step12.call_stoq_add_variants (fun _ => .fail "HTTP 422: duplicate") [9] 75).skipped
        = [9]
      ∧ (Step12.call_stoq_add_variants (fun _ => .fail "HTTP 422: duplicate") [9] 75).added
        = []
      ∧ (Step12.call_stoq_add_variants (fun _ => .fail "HTTP 422: duplicate") [9] 75).firstError
        = some (Step12.mkErr422 "HTTP 422: duplicate"))
    ∧ Step09._add_chunk_or_bisect (fun _ => .unproc []) [9] = ⟨true, [9], [[9]]⟩ := by
  constructor
  · exact C10_singleton_skipped.1 (fun _ => .fail "HTTP 422: duplicate") 9
      "HTTP 422: duplicate" rfl (by decide) (by decide)
  · exact C10_singleton_skipped.2 (fun _ => .unproc []) 9 rfl
